import Mathlib

/-!
# Verification of the DeepSeek GitHub monitor (`monitor.py`)

A shallow embedding of the change-detection and state-reconciliation core of
`monitor.py`.  Python dictionaries coming from the GitHub API are modelled as
structures with `Option` fields (a missing key is `none`); reading a required
key (`d["k"]`) is modelled in the `Except String` monad, where `.error`
stands for a raised `KeyError`.  The persisted state dictionary is modelled
by the `State` structure, whose per-repository mappings are association
lists with Python-dict update semantics (`assocSet` replaces in place or
appends).  External effects (HTTP fetches, Feishu webhook delivery) are
supplied by an `Env` record of adapter results, and notifications are
recorded as an ordered list of `Notif` events.
-/

set_option autoImplicit false

namespace Monitor

/-- A repository record as fetched from the API: only the fields the core
reads.  `none` models an absent key. -/
structure Repo where
  name : Option String
  id : Option Int
  deriving DecidableEq

/-- A release record as fetched from the API (fields read by the core). -/
structure Release where
  id : Option Int
  tag_name : Option String
  deriving DecidableEq

/-- A tag record as fetched from the API (fields read by the core).
`commit_sha` models `t.get("commit", {}).get("sha", "")`'s source value:
`none` when the nested key is absent. -/
structure Tag where
  name : Option String
  commit_sha : Option String
  deriving DecidableEq

/-- An entry of `state["repos"]`: built at monitor.py:297 as
`{"name": r["name"], "id": r["id"]}`, so both fields are always present. -/
structure RepoEntry where
  name : String
  id : Int
  deriving DecidableEq

/-- An entry of `state["releases"][repo]`: built at monitor.py:315 as
`{"id": r["id"], "tag_name": r.get("tag_name", "")}`. -/
structure RelEntry where
  id : Int
  tag_name : String
  deriving DecidableEq

/-- An entry of `state["tags"][repo]`: built at monitor.py:341 as
`{"name": t["name"], "commit": t.get("commit", {}).get("sha", "")}`. -/
structure TagEntry where
  name : String
  commit : String
  deriving DecidableEq

/-- Python-dict lookup on an association list (`d.get(k)`). -/
def assocGet {α : Type} (m : List (String × α)) (k : String) : Option α :=
  match m with
  | [] => none
  | (k', v) :: rest => if k' = k then some v else assocGet rest k

/-- Python-dict update on an association list (`d[k] = v`): replaces the
existing binding in place, or appends a new one. -/
def assocSet {α : Type} (m : List (String × α)) (k : String) (v : α) :
    List (String × α) :=
  match m with
  | [] => [(k, v)]
  | (k', v') :: rest =>
    if k' = k then (k, v) :: rest else (k', v') :: assocSet rest k v

/-- The persisted snapshot: the dictionary
`{"repos": [...], "releases": {...}, "tags": {...}}` of monitor.py:36. -/
structure State where
  repos : List RepoEntry
  releases : List (String × List RelEntry)
  tags : List (String × List TagEntry)
  deriving DecidableEq

/-- The empty default state returned by `load_state` when no prior snapshot
exists (monitor.py:36). -/
def emptyState : State := ⟨[], [], []⟩

/-- Reading a required dict key: `d["k"]` raises `KeyError` when absent. -/
def require {α : Type} (v : Option α) : Except String α :=
  match v with
  | some x => .ok x
  | none => .error "KeyError"

/-- The comprehension of `detect_new_repos` (monitor.py:164): keeps the
repos whose `name` is absent from `known`; evaluating `repo["name"]` raises
`KeyError` on a record with no name. -/
def detectNewReposGo (known : List String) : List Repo → Except String (List Repo)
  | [] => .ok []
  | r :: rs =>
    match r.name with
    | none => .error "KeyError"
    | some n =>
      match detectNewReposGo known rs with
      | .error e => .error e
      | .ok rest => .ok (if n ∈ known then rest else r :: rest)

/-- `detect_new_repos` (monitor.py:161-165): detect new repositories by
name against `state["repos"]`. -/
def detect_new_repos (current_repos : List Repo) (state : State) :
    Except String (List Repo) :=
  detectNewReposGo (state.repos.map RepoEntry.name) current_repos

/-- The comprehension of `detect_new_releases` (monitor.py:172): keeps the
releases whose `id` is absent from `known`; `r["id"]` raises `KeyError`
when absent. -/
def detectNewReleasesGo (known : List Int) : List Release → Except String (List Release)
  | [] => .ok []
  | r :: rs =>
    match r.id with
    | none => .error "KeyError"
    | some i =>
      match detectNewReleasesGo known rs with
      | .error e => .error e
      | .ok rest => .ok (if i ∈ known then rest else r :: rest)

/-- `detect_new_releases` (monitor.py:168-173): detect new releases for a
repository by `release.id` against `state["releases"][repo_name]`
(defaulting to the empty list). -/
def detect_new_releases (repo_name : String) (current_releases : List Release)
    (state : State) : Except String (List Release) :=
  detectNewReleasesGo
    (((assocGet state.releases repo_name).getD []).map RelEntry.id) current_releases

/-- The comprehension of `detect_new_tags` (monitor.py:180) and of the
inline copy at monitor.py:326-328: keeps the tags whose `name` is absent
from `known`; `t["name"]` raises `KeyError` when absent. -/
def detectNewTagsGo (known : List String) : List Tag → Except String (List Tag)
  | [] => .ok []
  | t :: ts =>
    match t.name with
    | none => .error "KeyError"
    | some n =>
      match detectNewTagsGo known ts with
      | .error e => .error e
      | .ok rest => .ok (if n ∈ known then rest else t :: rest)

/-- `detect_new_tags` (monitor.py:176-181): detect new tags for a
repository by `tag.name` against `state["tags"][repo_name]`. -/
def detect_new_tags (repo_name : String) (current_tags : List Tag)
    (state : State) : Except String (List Tag) :=
  detectNewTagsGo
    (((assocGet state.tags repo_name).getD []).map TagEntry.name) current_tags

/-- A notification event: one call to `send_feishu_post`, identified by the
kind of change and the identity fields that appear in its title
(monitor.py:186, 213, 241). -/
inductive Notif where
  | repo (name : String)
  | release (repoName : String) (tagName : String)
  | tag (repoName : String) (tagName : String)
  deriving DecidableEq

/-- The Fetch Adapter: the results of `fetch_repos`, `fetch_releases` and
`fetch_tags` for one pass.  `.error ()` models a raised request exception
(`raise_for_status` or transport failure). -/
structure Env where
  fetchRepos : Except Unit (List Repo)
  fetchReleases : String → Except Unit (List Release)
  fetchTags : String → Except Unit (List Tag)

/-- Build the `state["releases"][repo_name]` entry of one release
(monitor.py:315): `{"id": r["id"], "tag_name": r.get("tag_name", "")}`.
The `id` read raises `KeyError` when absent. -/
def relEntryOf (r : Release) : Except String RelEntry :=
  match r.id with
  | some i => .ok ⟨i, r.tag_name.getD ""⟩
  | none => .error "KeyError"

/-- The pure value of `relEntryOf` when the `id` is present. -/
def relEntryVal (r : Release) : RelEntry := ⟨r.id.getD 0, r.tag_name.getD ""⟩

/-- Build the `state["tags"][repo_name]` entry of one tag (monitor.py:341):
`{"name": t["name"], "commit": t.get("commit", {}).get("sha", "")}`.  The
`name` read raises `KeyError` when absent. -/
def tagEntryOf (t : Tag) : Except String TagEntry :=
  match t.name with
  | some n => .ok ⟨n, t.commit_sha.getD ""⟩
  | none => .error "KeyError"

/-- The pure value of `tagEntryOf` when the `name` is present. -/
def tagEntryVal (t : Tag) : TagEntry := ⟨t.name.getD "", t.commit_sha.getD ""⟩

/-- Build the `state["repos"]` entry of one fetched repository
(monitor.py:297): `{"name": r["name"], "id": r["id"]}`.  Either read raises
`KeyError` when the key is absent. -/
def repoEntryOf (r : Repo) : Except String RepoEntry :=
  match r.name, r.id with
  | some n, some i => .ok ⟨n, i⟩
  | _, _ => .error "KeyError"

/-- The pure value of `repoEntryOf` when both fields are present. -/
def repoEntryVal (r : Repo) : RepoEntry := ⟨r.name.getD "", r.id.getD 0⟩

/-- Traverse a list with a `KeyError`-raising step, as a Python list
comprehension does: the first missing key aborts with the error. -/
def excMapM {α β : Type} (f : α → Except String β) :
    List α → Except String (List β)
  | [] => .ok []
  | x :: xs =>
    match f x with
    | .error e => .error e
    | .ok y =>
      match excMapM f xs with
      | .error e => .error e
      | .ok ys => .ok (y :: ys)

/-- `release_tag_names_in_state` (monitor.py:320): the non-empty `tag_name`
values of `state["releases"][repo_name]` — read AFTER the entry was
overwritten at monitor.py:315.  Modelled as a list whose membership is the
set's membership. -/
def releaseTagNamesInState (state : State) (repo_name : String) : List String :=
  (((assocGet state.releases repo_name).getD []).map RelEntry.tag_name).filter
    (fun s => s ≠ "")

/-- `release_tag_names_in_run` (monitor.py:322): the `tag_name` values of
the releases newly detected in this run, with missing and empty values
filtered out by the `if r.get("tag_name")` truthiness guard. -/
def releaseTagNamesInRun (new_releases : List Release) : List String :=
  new_releases.filterMap (fun r =>
    if r.tag_name.getD "" = "" then none else r.tag_name)

/-- `notified_tag_names` (monitor.py:323): the union of the two sets above,
modelled as list concatenation (membership agrees with set union). -/
def notifiedTagNames (state : State) (repo_name : String)
    (new_releases : List Release) : List String :=
  releaseTagNamesInState state repo_name ++ releaseTagNamesInRun new_releases

/-- The body of the per-repository `try` block (monitor.py:304-344) for one
repository.  Returns the state after the block and the notifications sent,
in order.  A caught exception (a fetch failure or a `KeyError` from a
malformed record) stops the block but keeps every mutation made before it —
exactly the Python `except Exception` at monitor.py:343, which logs and
falls through to the next repository. -/
def processRepo (env : Env) (repo_name : String) (st : State) :
    State × List Notif :=
  match env.fetchReleases repo_name with
  | .error _ => (st, [])
  | .ok releases =>
    match detect_new_releases repo_name releases st with
    | .error _ => (st, [])
    | .ok new_releases =>
      -- monitor.py:309-312: one notification per new release; the title
      -- shows `release.get("tag_name", "unknown")` via format_release_blocks.
      let relNotifs := new_releases.map
        (fun r => Notif.release repo_name (r.tag_name.getD "unknown"))
      match excMapM relEntryOf releases with
      | .error _ => (st, relNotifs)
      | .ok relEntries =>
        -- monitor.py:315: always overwrite state["releases"][repo_name].
        let st1 : State :=
          { st with releases := assocSet st.releases repo_name relEntries }
        match env.fetchTags repo_name with
        | .error _ => (st1, relNotifs)
        | .ok tags =>
          -- monitor.py:320-323, computed against the already-updated st1.
          let notified := notifiedTagNames st1 repo_name new_releases
          -- monitor.py:326-328: inline new-tag detection against state tags.
          match detect_new_tags repo_name tags st1 with
          | .error _ => (st1, relNotifs)
          | .ok new_tags =>
            -- monitor.py:330-338: skip tags covered by releases, notify rest.
            let tagNotifs := (new_tags.filter (fun t =>
                match t.name with
                | some s => decide (s ∉ notified)
                | none => true)).map
              (fun t => Notif.tag repo_name (t.name.getD "unknown"))
            match excMapM tagEntryOf tags with
            | .error _ => (st1, relNotifs ++ tagNotifs)
            | .ok tagEntries =>
              -- monitor.py:341: always overwrite state["tags"][repo_name].
              ({ st1 with tags := assocSet st1.tags repo_name tagEntries },
                relNotifs ++ tagNotifs)

/-- The `for repo in repos` loop of monitor.py:300-344, over the repository
names, threading the mutable state and collecting notifications in order. -/
def processRepos (env : Env) (names : List String) (st : State) :
    State × List Notif :=
  match names with
  | [] => (st, [])
  | n :: rest =>
    let p := processRepo env n st
    let q := processRepos env rest p.1
    (q.1, p.2 ++ q.2)

/-- The result of one pass of `main` that did not crash: the final state,
whether `save_state` ran, and the notifications attempted in order. -/
structure PassResult where
  state : State
  persisted : Bool
  notifs : List Notif
  deriving DecidableEq

/-- `main` (monitor.py:275-348), given the loaded state `st0`.  An
organization-listing failure returns early (monitor.py:283-285) with no
mutation, no notification and no save.  An uncaught exception outside the
per-repository `try` (a `KeyError` from a fetched repo record missing
`name` or `id`, at monitor.py:290, 292, 297 or 301) crashes the pass:
modelled as `.error`, with nothing persisted. -/
def runMain (env : Env) (st0 : State) : Except String PassResult :=
  match env.fetchRepos with
  | .error _ => .ok ⟨st0, false, []⟩
  | .ok repos =>
    match detect_new_repos repos st0 with
    | .error e => .error e
    | .ok new_repos =>
      -- monitor.py:291-294: one notification per new repository.
      let repoNotifs := new_repos.map (fun r => Notif.repo (r.name.getD "unknown"))
      -- monitor.py:297: state["repos"] = [{"name": r["name"], "id": r["id"]} ...]
      match excMapM repoEntryOf repos with
      | .error e => .error e
      | .ok repoEntries =>
        let st1 : State := { st0 with repos := repoEntries }
        let p := processRepos env (repoEntries.map RepoEntry.name) st1
        -- monitor.py:347: save_state(state)
        .ok ⟨p.1, true, repoNotifs ++ p.2⟩

/-- The outcome lines printed by `send_feishu_post` (monitor.py:148-153)
for a sequence of attempted notifications, given a delivery oracle `d`
(`d k` is whether the `k`-th webhook POST of the pass succeeds).  The
`try/except` around the POST catches a delivery failure, so its only
observable effect is which line is printed. -/
def sendLog (d : Nat → Bool) : Nat → List Notif → List String
  | _, [] => []
  | k, _ :: ns =>
    (if d k then "Feishu card sent" else "Failed to send Feishu card") ::
      sendLog d (k + 1) ns

/-- `main` observed together with the delivery outcomes: the pass result
plus the per-notification success/failure log determined by the oracle
`d`.  Because `send_feishu_post` catches every delivery exception, the
oracle reaches nothing but the log. -/
def runMainWithDelivery (env : Env) (d : Nat → Bool) (st0 : State) :
    Except String (PassResult × List String) :=
  (runMain env st0).map (fun r => (r, sendLog d 0 r.notifs))

/-! ## Snapshot persistence (`save_state` / `load_state`)

`save_state` (monitor.py:39-44) serializes the state dict with `json.dump`
to a temporary file and atomically replaces the state file; `load_state`
(monitor.py:28-36) parses it back with `json.load`.  We model the JSON
document tree as the inductive `J`; `stateToJ` is how `json.dump`
serializes the state structure, and `jToState` is how the loaded document
is consumed back into the state structure (keys `"repos"`, `"releases"`,
`"tags"`, with the entry shapes written at monitor.py:297, 315 and 341). -/

/-- A JSON value, as written and read by `json.dump`/`json.load`. -/
inductive J where
  | null
  | str (s : String)
  | num (n : Int)
  | arr (xs : List J)
  | obj (fields : List (String × J))

/-- Serialize one `state["repos"]` entry. -/
def repoEntryToJ (r : RepoEntry) : J :=
  .obj [("name", .str r.name), ("id", .num r.id)]

/-- Serialize one `state["releases"][repo]` entry. -/
def relEntryToJ (r : RelEntry) : J :=
  .obj [("id", .num r.id), ("tag_name", .str r.tag_name)]

/-- Serialize one `state["tags"][repo]` entry. -/
def tagEntryToJ (t : TagEntry) : J :=
  .obj [("name", .str t.name), ("commit", .str t.commit)]

/-- `save_state`: the JSON document `json.dump` writes for the state dict. -/
def stateToJ (st : State) : J :=
  .obj
    [ ("repos", .arr (st.repos.map repoEntryToJ)),
      ("releases", .obj (st.releases.map
        (fun p => (p.1, J.arr (p.2.map relEntryToJ))))),
      ("tags", .obj (st.tags.map
        (fun p => (p.1, J.arr (p.2.map tagEntryToJ))))) ]

/-- Traverse with an `Option`-valued decoder; `none` anywhere fails. -/
def optMapM {α β : Type} (f : α → Option β) : List α → Option (List β)
  | [] => some []
  | x :: xs =>
    match f x with
    | none => none
    | some y =>
      match optMapM f xs with
      | none => none
      | some ys => some (y :: ys)

/-- Decode one `state["repos"]` entry. -/
def jToRepoEntry (j : J) : Option RepoEntry :=
  match j with
  | .obj fs =>
    match assocGet fs "name", assocGet fs "id" with
    | some (.str n), some (.num i) => some ⟨n, i⟩
    | _, _ => none
  | _ => none

/-- Decode one `state["releases"][repo]` entry. -/
def jToRelEntry (j : J) : Option RelEntry :=
  match j with
  | .obj fs =>
    match assocGet fs "id", assocGet fs "tag_name" with
    | some (.num i), some (.str s) => some ⟨i, s⟩
    | _, _ => none
  | _ => none

/-- Decode one `state["tags"][repo]` entry. -/
def jToTagEntry (j : J) : Option TagEntry :=
  match j with
  | .obj fs =>
    match assocGet fs "name", assocGet fs "commit" with
    | some (.str n), some (.str c) => some ⟨n, c⟩
    | _, _ => none
  | _ => none

/-- Decode one per-repository collection of the `"releases"` mapping. -/
def jToRelList (p : String × J) : Option (String × List RelEntry) :=
  match p.2 with
  | .arr xs =>
    match optMapM jToRelEntry xs with
    | some l => some (p.1, l)
    | none => none
  | _ => none

/-- Decode one per-repository collection of the `"tags"` mapping. -/
def jToTagList (p : String × J) : Option (String × List TagEntry) :=
  match p.2 with
  | .arr xs =>
    match optMapM jToTagEntry xs with
    | some l => some (p.1, l)
    | none => none
  | _ => none

/-- `load_state`: read the parsed JSON document back into the state
structure, as the rest of the program consumes it. -/
def jToState (j : J) : Option State :=
  match j with
  | .obj fs =>
    match assocGet fs "repos", assocGet fs "releases", assocGet fs "tags" with
    | some (.arr rs), some (.obj rel), some (.obj tg) =>
      match optMapM jToRepoEntry rs, optMapM jToRelList rel,
          optMapM jToTagList tg with
      | some repos, some releases, some tags => some ⟨repos, releases, tags⟩
      | _, _, _ => none
    | _, _, _ => none
  | _ => none

/-! ## Auxiliary predicates and concrete test fixtures -/

/-- The adapter behaves well at repository `n`: both per-repository fetches
succeed and every fetched record carries its identity field. -/
def GoodAt (env : Env) (n : String) : Prop :=
  (∃ rs, env.fetchReleases n = .ok rs ∧ ∀ r ∈ rs, r.id.isSome) ∧
  (∃ ts, env.fetchTags n = .ok ts ∧ ∀ t ∈ ts, t.name.isSome)

/-- An adapter whose organization-level listing fails. -/
def envListingFail : Env :=
  { fetchRepos := .error (),
    fetchReleases := fun _ => .ok [],
    fetchTags := fun _ => .ok [] }

/-- An adapter for which repository `"B"`'s release fetch succeeds with one
new release but its tag fetch fails. -/
def envTagsFail : Env :=
  { fetchRepos := .ok [⟨some "B", some 2⟩],
    fetchReleases := fun _ => .ok [⟨some 1, some "t"⟩],
    fetchTags := fun _ => .error () }

/-- A state that already knows repository `"B"` with empty collections. -/
def stB : State := ⟨[⟨"B", 2⟩], [("B", [])], [("B", [])]⟩

/-- An adapter returning no releases and one tag `"old"` for `"x"`. -/
def envStaleRelease : Env :=
  { fetchRepos := .ok [⟨some "x", some 1⟩],
    fetchReleases := fun _ => .ok [],
    fetchTags := fun _ => .ok [⟨some "old", some "sha"⟩] }

/-- A state whose snapshot for `"x"` records a release with tag name
`"old"` that the adapter no longer returns. -/
def stStale : State := ⟨[⟨"x", 1⟩], [("x", [⟨1, "old"⟩])], [("x", [])]⟩

/-- An adapter returning, for `"x"`, one release whose `tag_name` is the
empty string and one tag whose `name` is the empty string. -/
def envEmptyTagName : Env :=
  { fetchRepos := .ok [⟨some "x", some 1⟩],
    fetchReleases := fun _ => .ok [⟨some 5, some ""⟩],
    fetchTags := fun _ => .ok [⟨some "", some "sha"⟩] }

/-- A state that already knows repository `"x"` with empty collections. -/
def stX : State := ⟨[⟨"x", 1⟩], [("x", [])], [("x", [])]⟩

/-- A well-behaved adapter over three repositories, where the release
`"r1"` and the tag `"r1"` describe the same event. -/
def envThree : Env :=
  { fetchRepos := .ok [⟨some "A", some 1⟩, ⟨some "B", some 2⟩, ⟨some "C", some 3⟩],
    fetchReleases := fun n =>
      if n = "B" then .ok [⟨some 9, some "b1"⟩] else .ok [⟨some 4, some "r1"⟩],
    fetchTags := fun n =>
      if n = "B" then .ok []
      else .ok [⟨some "r1", some "s"⟩, ⟨some "z", some "s2"⟩] }

/-- An adapter listing one previously unseen repository `"N"` whose
release fetch fails (its tag fetch would succeed). -/
def envRelFail : Env :=
  { fetchRepos := .ok [⟨some "N", some 7⟩],
    fetchReleases := fun _ => .error (),
    fetchTags := fun _ => .ok [] }

/-- A mixed adapter: repository `"A"`'s fetches fully succeed, `"B"`'s tag
fetch fails after its release fetch succeeded, `"C"`'s fetches succeed
with empty release and tag lists. -/
def envMixed : Env :=
  { fetchRepos := .ok [⟨some "A", some 1⟩, ⟨some "B", some 2⟩, ⟨some "C", some 3⟩],
    fetchReleases := fun n =>
      if n = "C" then .ok [] else .ok [⟨some 4, some "r1"⟩],
    fetchTags := fun n =>
      if n = "B" then .error ()
      else if n = "C" then .ok [] else .ok [⟨some "z", some "s"⟩] }

/-! ## Association-list lemmas -/

theorem assocGet_assocSet_self {α : Type} (m : List (String × α)) (k : String)
    (v : α) : assocGet (assocSet m k v) k = some v := by
  induction m with
  | nil => simp [assocSet, assocGet]
  | cons p rest ih =>
    by_cases h : p.1 = k
    · simp [assocSet, assocGet, h]
    · simp [assocSet, assocGet, h, ih]

theorem assocGet_assocSet_ne {α : Type} (m : List (String × α)) (k k' : String)
    (v : α) (h : k' ≠ k) : assocGet (assocSet m k v) k' = assocGet m k' := by
  induction m with
  | nil => simp [assocSet, assocGet, h, Ne.symm h]
  | cons p rest ih =>
    by_cases hp : p.1 = k
    · subst hp
      simp [assocSet, assocGet, Ne.symm h]
    · simp [assocSet, assocGet, hp, ih]

/-! ## Detector characterizations -/

theorem detectNewReposGo_eq (known : List String) (l : List Repo)
    (h : ∀ r ∈ l, r.name.isSome) :
    detectNewReposGo known l =
      .ok (l.filter (fun r => decide (r.name.getD "" ∉ known))) := by
  induction l with
  | nil => rfl
  | cons r rs ih =>
    cases hname : r.name with
    | none =>
      have := h r (by simp)
      rw [hname] at this
      simp at this
    | some n =>
      have ihr := ih (fun x hx => h x (List.mem_cons_of_mem _ hx))
      by_cases hk : n ∈ known <;>
        simp [detectNewReposGo, hname, ihr, List.filter_cons, hk]

theorem detectNewReposGo_ok_iff (known : List String) (l : List Repo) :
    (∃ out, detectNewReposGo known l = .ok out) ↔ ∀ r ∈ l, r.name.isSome := by
  constructor
  · rintro ⟨out, hout⟩ r hr
    induction l generalizing out with
    | nil => cases hr
    | cons x xs ih =>
      cases hx : x.name with
      | none => rw [detectNewReposGo, hx] at hout; cases hout
      | some n =>
        rw [detectNewReposGo, hx] at hout
        cases hrec : detectNewReposGo known xs with
        | error e => rw [hrec] at hout; cases hout
        | ok rest =>
          rcases List.mem_cons.mp hr with h1 | h2
          · subst h1; simp [hx]
          · exact ih _ hrec h2
  · intro h
    exact ⟨_, detectNewReposGo_eq known l h⟩

theorem detectNewReleasesGo_eq (known : List Int) (l : List Release)
    (h : ∀ r ∈ l, r.id.isSome) :
    detectNewReleasesGo known l =
      .ok (l.filter (fun r => decide (r.id.getD 0 ∉ known))) := by
  induction l with
  | nil => rfl
  | cons r rs ih =>
    cases hid : r.id with
    | none =>
      have := h r (by simp)
      rw [hid] at this
      simp at this
    | some i =>
      have ihr := ih (fun x hx => h x (List.mem_cons_of_mem _ hx))
      by_cases hk : i ∈ known <;>
        simp [detectNewReleasesGo, hid, ihr, List.filter_cons, hk]

theorem detectNewReleasesGo_ok_iff (known : List Int) (l : List Release) :
    (∃ out, detectNewReleasesGo known l = .ok out) ↔ ∀ r ∈ l, r.id.isSome := by
  constructor
  · rintro ⟨out, hout⟩ r hr
    induction l generalizing out with
    | nil => cases hr
    | cons x xs ih =>
      cases hx : x.id with
      | none => rw [detectNewReleasesGo, hx] at hout; cases hout
      | some i =>
        rw [detectNewReleasesGo, hx] at hout
        cases hrec : detectNewReleasesGo known xs with
        | error e => rw [hrec] at hout; cases hout
        | ok rest =>
          rcases List.mem_cons.mp hr with h1 | h2
          · subst h1; simp [hx]
          · exact ih _ hrec h2
  · intro h
    exact ⟨_, detectNewReleasesGo_eq known l h⟩

theorem detectNewTagsGo_eq (known : List String) (l : List Tag)
    (h : ∀ t ∈ l, t.name.isSome) :
    detectNewTagsGo known l =
      .ok (l.filter (fun t => decide (t.name.getD "" ∉ known))) := by
  induction l with
  | nil => rfl
  | cons t ts ih =>
    cases hname : t.name with
    | none =>
      have := h t (by simp)
      rw [hname] at this
      simp at this
    | some n =>
      have ihr := ih (fun x hx => h x (List.mem_cons_of_mem _ hx))
      by_cases hk : n ∈ known <;>
        simp [detectNewTagsGo, hname, ihr, List.filter_cons, hk]

theorem detectNewTagsGo_ok_iff (known : List String) (l : List Tag) :
    (∃ out, detectNewTagsGo known l = .ok out) ↔ ∀ t ∈ l, t.name.isSome := by
  constructor
  · rintro ⟨out, hout⟩ t ht
    induction l generalizing out with
    | nil => cases ht
    | cons x xs ih =>
      cases hx : x.name with
      | none => rw [detectNewTagsGo, hx] at hout; cases hout
      | some n =>
        rw [detectNewTagsGo, hx] at hout
        cases hrec : detectNewTagsGo known xs with
        | error e => rw [hrec] at hout; cases hout
        | ok rest =>
          rcases List.mem_cons.mp ht with h1 | h2
          · subst h1; simp [hx]
          · exact ih _ hrec h2
  · intro h
    exact ⟨_, detectNewTagsGo_eq known l h⟩

/-! ## `excMapM` lemmas -/

theorem excMapM_eq_map {α β : Type} (f : α → Except String β) (g : α → β)
    (l : List α) (h : ∀ x ∈ l, f x = .ok (g x)) :
    excMapM f l = .ok (l.map g) := by
  induction l with
  | nil => rfl
  | cons x xs ih =>
    simp [excMapM, h x (by simp), ih (fun y hy => h y (List.mem_cons_of_mem _ hy))]

theorem relEntryOf_ok (r : Release) (h : r.id.isSome) :
    relEntryOf r = .ok (relEntryVal r) := by
  cases hid : r.id with
  | none => rw [hid] at h; cases h
  | some i => simp [relEntryOf, relEntryVal, hid]

theorem tagEntryOf_ok (t : Tag) (h : t.name.isSome) :
    tagEntryOf t = .ok (tagEntryVal t) := by
  cases hn : t.name with
  | none => rw [hn] at h; cases h
  | some n => simp [tagEntryOf, tagEntryVal, hn]

theorem repoEntryOf_ok (r : Repo) (hn : r.name.isSome) (hi : r.id.isSome) :
    repoEntryOf r = .ok (repoEntryVal r) := by
  cases h1 : r.name with
  | none => rw [h1] at hn; cases hn
  | some n =>
    cases h2 : r.id with
    | none => rw [h2] at hi; cases hi
    | some i => simp [repoEntryOf, repoEntryVal, h1, h2]

/-! ## `processRepo` structure lemmas -/

theorem detect_new_tags_congr (repo_name : String) (ts : List Tag)
    (st st' : State) (h : st.tags = st'.tags) :
    detect_new_tags repo_name ts st = detect_new_tags repo_name ts st' := by
  simp [detect_new_tags, h]

theorem processRepo_repos (env : Env) (rn : String) (st : State) :
    (processRepo env rn st).1.repos = st.repos := by
  simp only [processRepo]
  (repeat' split) <;> rfl

theorem processRepo_rel_ne (env : Env) (rn n : String) (st : State)
    (h : n ≠ rn) :
    assocGet (processRepo env rn st).1.releases n = assocGet st.releases n := by
  simp only [processRepo]
  (repeat' split) <;>
    first
      | rfl
      | simp [assocGet_assocSet_ne _ _ _ _ h]

theorem processRepo_tags_ne (env : Env) (rn n : String) (st : State)
    (h : n ≠ rn) :
    assocGet (processRepo env rn st).1.tags n = assocGet st.tags n := by
  simp only [processRepo]
  (repeat' split) <;>
    first
      | rfl
      | simp [assocGet_assocSet_ne _ _ _ _ h]

theorem processRepo_relFail (env : Env) (rn : String) (st : State)
    (h : env.fetchReleases rn = .error ()) :
    processRepo env rn st = (st, []) := by
  simp [processRepo, h]

theorem processRepo_tagFail (env : Env) (rn : String) (st : State)
    (rs nrs : List Release)
    (hr : env.fetchReleases rn = .ok rs)
    (hdr : detect_new_releases rn rs st = .ok nrs)
    (ht : env.fetchTags rn = .error ()) :
    processRepo env rn st =
      ({ st with releases := assocSet st.releases rn (rs.map relEntryVal) },
       nrs.map (fun r => Notif.release rn (r.tag_name.getD "unknown"))) := by
  have hids : ∀ r ∈ rs, r.id.isSome :=
    (detectNewReleasesGo_ok_iff _ _).mp ⟨nrs, hdr⟩
  have hrel : excMapM relEntryOf rs = .ok (rs.map relEntryVal) :=
    excMapM_eq_map _ _ _ (fun r h => relEntryOf_ok r (hids r h))
  simp [processRepo, hr, hdr, hrel, ht]

theorem processRepo_ok (env : Env) (rn : String) (st : State)
    (rs : List Release) (ts : List Tag) (nrs : List Release) (nts : List Tag)
    (hr : env.fetchReleases rn = .ok rs)
    (hdr : detect_new_releases rn rs st = .ok nrs)
    (ht : env.fetchTags rn = .ok ts)
    (hdt : detect_new_tags rn ts st = .ok nts) :
    processRepo env rn st =
      (⟨st.repos, assocSet st.releases rn (rs.map relEntryVal),
        assocSet st.tags rn (ts.map tagEntryVal)⟩,
       nrs.map (fun r => Notif.release rn (r.tag_name.getD "unknown")) ++
       (nts.filter (fun t =>
         match t.name with
         | some s =>
           decide (s ∉ notifiedTagNames
             { st with releases := assocSet st.releases rn (rs.map relEntryVal) }
             rn nrs)
         | none => true)).map
         (fun t => Notif.tag rn (t.name.getD "unknown"))) := by
  have hids : ∀ r ∈ rs, r.id.isSome :=
    (detectNewReleasesGo_ok_iff _ _).mp ⟨nrs, hdr⟩
  have htnames : ∀ t ∈ ts, t.name.isSome :=
    (detectNewTagsGo_ok_iff _ _).mp ⟨nts, hdt⟩
  have hrel : excMapM relEntryOf rs = .ok (rs.map relEntryVal) :=
    excMapM_eq_map _ _ _ (fun r h => relEntryOf_ok r (hids r h))
  have htag : excMapM tagEntryOf ts = .ok (ts.map tagEntryVal) :=
    excMapM_eq_map _ _ _ (fun t h => tagEntryOf_ok t (htnames t h))
  have hdt' : detect_new_tags rn ts
      { st with releases := assocSet st.releases rn (rs.map relEntryVal) } =
      .ok nts := hdt
  simp [processRepo, hr, hdr, hrel, ht, hdt', htag]

theorem processRepo_good_rel (env : Env) (n : String) (st : State)
    (hg : GoodAt env n) :
    ∃ rs, env.fetchReleases n = .ok rs ∧
      assocGet (processRepo env n st).1.releases n = some (rs.map relEntryVal) := by
  obtain ⟨⟨rs, hr, hids⟩, ⟨ts, ht, htn⟩⟩ := hg
  have hdr : detect_new_releases n rs st =
      .ok (rs.filter (fun r =>
        decide (r.id.getD 0 ∉ ((assocGet st.releases n).getD []).map RelEntry.id))) :=
    detectNewReleasesGo_eq _ rs hids
  have hdt : detect_new_tags n ts st =
      .ok (ts.filter (fun t =>
        decide (t.name.getD "" ∉ ((assocGet st.tags n).getD []).map TagEntry.name))) :=
    detectNewTagsGo_eq _ ts htn
  refine ⟨rs, hr, ?_⟩
  rw [processRepo_ok env n st rs ts _ _ hr hdr ht hdt]
  simp [assocGet_assocSet_self]

theorem processRepo_good_tags (env : Env) (n : String) (st : State)
    (hg : GoodAt env n) :
    ∃ ts, env.fetchTags n = .ok ts ∧
      assocGet (processRepo env n st).1.tags n = some (ts.map tagEntryVal) := by
  obtain ⟨⟨rs, hr, hids⟩, ⟨ts, ht, htn⟩⟩ := hg
  have hdr : detect_new_releases n rs st =
      .ok (rs.filter (fun r =>
        decide (r.id.getD 0 ∉ ((assocGet st.releases n).getD []).map RelEntry.id))) :=
    detectNewReleasesGo_eq _ rs hids
  have hdt : detect_new_tags n ts st =
      .ok (ts.filter (fun t =>
        decide (t.name.getD "" ∉ ((assocGet st.tags n).getD []).map TagEntry.name))) :=
    detectNewTagsGo_eq _ ts htn
  refine ⟨ts, ht, ?_⟩
  rw [processRepo_ok env n st rs ts _ _ hr hdr ht hdt]
  simp [assocGet_assocSet_self]

/-! ## `processRepos` loop lemmas -/

theorem processRepos_repos (env : Env) (names : List String) (st : State) :
    (processRepos env names st).1.repos = st.repos := by
  induction names generalizing st with
  | nil => rfl
  | cons n rest ih =>
    simp only [processRepos]
    rw [ih, processRepo_repos]

theorem processRepos_rel_not_mem (env : Env) (names : List String) (st : State)
    (n : String) (h : n ∉ names) :
    assocGet (processRepos env names st).1.releases n = assocGet st.releases n := by
  induction names generalizing st with
  | nil => rfl
  | cons m rest ih =>
    simp only [processRepos]
    rw [ih _ (fun hr => h (List.mem_cons_of_mem _ hr)),
      processRepo_rel_ne env m n st (fun he => h (he ▸ List.mem_cons_self _ _))]

theorem processRepos_tags_not_mem (env : Env) (names : List String) (st : State)
    (n : String) (h : n ∉ names) :
    assocGet (processRepos env names st).1.tags n = assocGet st.tags n := by
  induction names generalizing st with
  | nil => rfl
  | cons m rest ih =>
    simp only [processRepos]
    rw [ih _ (fun hr => h (List.mem_cons_of_mem _ hr)),
      processRepo_tags_ne env m n st (fun he => h (he ▸ List.mem_cons_self _ _))]

theorem processRepos_rel_entry (env : Env) (names : List String) (st : State)
    (n : String) (hgood : GoodAt env n) (hn : n ∈ names) :
    ∃ rs, env.fetchReleases n = .ok rs ∧
      assocGet (processRepos env names st).1.releases n =
        some (rs.map relEntryVal) := by
  induction names generalizing st with
  | nil => cases hn
  | cons m rest ih =>
    by_cases hr : n ∈ rest
    · simp only [processRepos]
      exact ih _ hr
    · have hm : n = m := by
        rcases List.mem_cons.mp hn with h1 | h2
        · exact h1
        · exact absurd h2 hr
      subst hm
      simp only [processRepos]
      obtain ⟨rs, hrq, hset⟩ := processRepo_good_rel env n st hgood
      exact ⟨rs, hrq, by rw [processRepos_rel_not_mem env rest _ n hr, hset]⟩

theorem processRepos_tags_entry (env : Env) (names : List String) (st : State)
    (n : String) (hgood : GoodAt env n) (hn : n ∈ names) :
    ∃ ts, env.fetchTags n = .ok ts ∧
      assocGet (processRepos env names st).1.tags n =
        some (ts.map tagEntryVal) := by
  induction names generalizing st with
  | nil => cases hn
  | cons m rest ih =>
    by_cases hr : n ∈ rest
    · simp only [processRepos]
      exact ih _ hr
    · have hm : n = m := by
        rcases List.mem_cons.mp hn with h1 | h2
        · exact h1
        · exact absurd h2 hr
      subst hm
      simp only [processRepos]
      obtain ⟨ts, htq, hset⟩ := processRepo_good_tags env n st hgood
      exact ⟨ts, htq, by rw [processRepos_tags_not_mem env rest _ n hr, hset]⟩

/-! ## `runMain` characterization -/

theorem runMain_eq (env : Env) (st0 : State) (repos : List Repo)
    (hr : env.fetchRepos = .ok repos)
    (hn : ∀ r ∈ repos, r.name.isSome) (hi : ∀ r ∈ repos, r.id.isSome) :
    runMain env st0 =
      .ok ⟨(processRepos env ((repos.map repoEntryVal).map RepoEntry.name)
              { st0 with repos := repos.map repoEntryVal }).1,
           true,
           (repos.filter (fun r =>
              decide (r.name.getD "" ∉ st0.repos.map RepoEntry.name))).map
             (fun r => Notif.repo (r.name.getD "unknown")) ++
           (processRepos env ((repos.map repoEntryVal).map RepoEntry.name)
              { st0 with repos := repos.map repoEntryVal }).2⟩ := by
  have hdet : detect_new_repos repos st0 =
      .ok (repos.filter (fun r =>
        decide (r.name.getD "" ∉ st0.repos.map RepoEntry.name))) :=
    detectNewReposGo_eq _ repos hn
  have hmap : excMapM repoEntryOf repos = .ok (repos.map repoEntryVal) :=
    excMapM_eq_map _ _ _ (fun r h => repoEntryOf_ok r (hn r h) (hi r h))
  simp [runMain, hr, hdet, hmap]

/-! ## The tag-suppression set -/

theorem mem_releaseTagNamesInRun_iff (nrs : List Release) (s : String) :
    s ∈ releaseTagNamesInRun nrs ↔ ∃ r ∈ nrs, r.tag_name = some s ∧ s ≠ "" := by
  simp only [releaseTagNamesInRun, List.mem_filterMap]
  constructor
  · rintro ⟨r, hr, hmatch⟩
    by_cases h : r.tag_name.getD "" = ""
    · rw [if_pos h] at hmatch; cases hmatch
    · rw [if_neg h] at hmatch
      refine ⟨r, hr, hmatch, ?_⟩
      rw [hmatch] at h
      simpa using h
  · rintro ⟨r, hr, htag, hs⟩
    refine ⟨r, hr, ?_⟩
    rw [htag]
    simp only [Option.getD_some]
    rw [if_neg hs]

theorem mem_releaseTagNamesInState_iff (st : State) (rn : String)
    (rs : List Release)
    (hget : assocGet st.releases rn = some (rs.map relEntryVal)) (s : String) :
    s ∈ releaseTagNamesInState st rn ↔
      ∃ r ∈ rs, r.tag_name = some s ∧ s ≠ "" := by
  unfold releaseTagNamesInState
  rw [hget]
  simp only [Option.getD_some]
  rw [List.mem_filter]
  constructor
  · rintro ⟨hmem, hne⟩
    have hne' : ¬ s = "" := by simpa using hne
    rw [List.mem_map] at hmem
    obtain ⟨e, he, hse⟩ := hmem
    rw [List.mem_map] at he
    obtain ⟨r, hr, hre⟩ := he
    cases htag : r.tag_name with
    | none =>
      exfalso
      apply hne'
      rw [← hse, ← hre]
      simp [relEntryVal, htag]
    | some u =>
      have : u = s := by
        rw [← hse, ← hre]
        simp [relEntryVal, htag]
      exact ⟨r, hr, by rw [htag, this], hne'⟩
  · rintro ⟨r, hr, htag, hs⟩
    constructor
    · rw [List.mem_map]
      refine ⟨relEntryVal r, List.mem_map_of_mem _ hr, ?_⟩
      simp [relEntryVal, htag]
    · simpa using hs

theorem mem_notifiedTagNames_iff (st : State) (rn : String)
    (rs nrs : List Release)
    (hget : assocGet st.releases rn = some (rs.map relEntryVal))
    (hsub : ∀ r ∈ nrs, r ∈ rs) (s : String) :
    s ∈ notifiedTagNames st rn nrs ↔
      ∃ r ∈ rs, r.tag_name = some s ∧ s ≠ "" := by
  unfold notifiedTagNames
  rw [List.mem_append, mem_releaseTagNamesInState_iff st rn rs hget,
    mem_releaseTagNamesInRun_iff]
  constructor
  · rintro (h | ⟨r, hr, htag, hs⟩)
    · exact h
    · exact ⟨r, hsub r hr, htag, hs⟩
  · exact fun h => Or.inl h

theorem detectNewReleasesGo_subset (known : List Int) (l out : List Release)
    (h : detectNewReleasesGo known l = .ok out) : ∀ r ∈ out, r ∈ l := by
  induction l generalizing out with
  | nil =>
    cases h
    intro r hr
    cases hr
  | cons x xs ih =>
    cases hx : x.id with
    | none => rw [detectNewReleasesGo, hx] at h; cases h
    | some i =>
      rw [detectNewReleasesGo, hx] at h
      cases hrec : detectNewReleasesGo known xs with
      | error e => rw [hrec] at h; cases h
      | ok rest =>
        rw [hrec] at h
        cases h
        intro r hr
        by_cases hk : i ∈ known
        · rw [if_pos hk] at hr
          exact List.mem_cons_of_mem _ (ih rest hrec r hr)
        · rw [if_neg hk] at hr
          rcases List.mem_cons.mp hr with h1 | h2
          · exact h1 ▸ List.mem_cons_self _ _
          · exact List.mem_cons_of_mem _ (ih rest hrec r h2)

theorem detectNewTagsGo_subset (known : List String) (l out : List Tag)
    (h : detectNewTagsGo known l = .ok out) : ∀ t ∈ out, t ∈ l := by
  induction l generalizing out with
  | nil =>
    cases h
    intro t ht
    cases ht
  | cons x xs ih =>
    cases hx : x.name with
    | none => rw [detectNewTagsGo, hx] at h; cases h
    | some n =>
      rw [detectNewTagsGo, hx] at h
      cases hrec : detectNewTagsGo known xs with
      | error e => rw [hrec] at h; cases h
      | ok rest =>
        rw [hrec] at h
        cases h
        intro t ht
        by_cases hk : n ∈ known
        · rw [if_pos hk] at ht
          exact List.mem_cons_of_mem _ (ih rest hrec t ht)
        · rw [if_neg hk] at ht
          rcases List.mem_cons.mp ht with h1 | h2
          · exact h1 ▸ List.mem_cons_self _ _
          · exact List.mem_cons_of_mem _ (ih rest hrec t h2)

/-- Through the loop, a repository whose fetches succeed still has each of
its releases that is new relative to the snapshot's release entry notified:
the release notification appears in the loop's notification list. -/
theorem processRepos_rel_notif (env : Env) (n : String)
    (rs : List Release) (hrs : env.fetchReleases n = .ok rs)
    (hg : GoodAt env n) (r : Release) (hr : r ∈ rs) :
    ∀ (names : List String) (st : State), n ∈ names →
      r.id.getD 0 ∉ ((assocGet st.releases n).getD []).map RelEntry.id →
      Notif.release n (r.tag_name.getD "unknown") ∈
        (processRepos env names st).2 := by
  intro names
  induction names with
  | nil =>
    intro st hn
    cases hn
  | cons m rest ih =>
    intro st hn hnew
    by_cases hm : n = m
    · subst hm
      obtain ⟨⟨rs', hr', hids⟩, ⟨ts, hts', htn⟩⟩ := hg
      rw [hrs] at hr'
      injection hr' with hr'
      subst hr'
      have hdr := detectNewReleasesGo_eq
        (((assocGet st.releases n).getD []).map RelEntry.id) rs hids
      have hdt := detectNewTagsGo_eq
        (((assocGet st.tags n).getD []).map TagEntry.name) ts htn
      simp only [processRepos]
      rw [processRepo_ok env n st rs ts _ _ hrs hdr hts' hdt]
      apply List.mem_append.mpr
      left
      apply List.mem_append.mpr
      left
      apply List.mem_map.mpr
      refine ⟨r, List.mem_filter.mpr ⟨hr, ?_⟩, rfl⟩
      simpa using hnew
    · have hn' : n ∈ rest := by
        rcases List.mem_cons.mp hn with h1 | h2
        · exact absurd h1 hm
        · exact h2
      simp only [processRepos]
      apply List.mem_append.mpr
      right
      apply ih _ hn'
      rw [processRepo_rel_ne env m n st hm]
      exact hnew

/-- Through the loop, a repository whose fetches succeed still has each of
its new tags that no currently fetched release covers notified: the tag
notification appears in the loop's notification list. -/
theorem processRepos_tag_notif (env : Env) (n : String)
    (rs : List Release) (ts : List Tag)
    (hrs : env.fetchReleases n = .ok rs) (hts : env.fetchTags n = .ok ts)
    (hg : GoodAt env n) (t : Tag) (htm : t ∈ ts) (s : String)
    (hname : t.name = some s)
    (hnocover : ¬ ∃ r' ∈ rs, r'.tag_name = some s ∧ s ≠ "") :
    ∀ (names : List String) (st : State), n ∈ names →
      s ∉ ((assocGet st.tags n).getD []).map TagEntry.name →
      Notif.tag n s ∈ (processRepos env names st).2 := by
  intro names
  induction names with
  | nil =>
    intro st hn
    cases hn
  | cons m rest ih =>
    intro st hn hnewtag
    by_cases hm : n = m
    · subst hm
      obtain ⟨⟨rs', hr', hids⟩, ⟨ts', hts', htn⟩⟩ := hg
      rw [hrs] at hr'
      injection hr' with hr'
      subst hr'
      rw [hts] at hts'
      injection hts' with hts'
      subst hts'
      have hdr := detectNewReleasesGo_eq
        (((assocGet st.releases n).getD []).map RelEntry.id) rs hids
      have hdt := detectNewTagsGo_eq
        (((assocGet st.tags n).getD []).map TagEntry.name) ts htn
      have hS := mem_notifiedTagNames_iff
        { st with releases := assocSet st.releases n (rs.map relEntryVal) }
        n rs
        (rs.filter (fun r =>
          decide (r.id.getD 0 ∉
            ((assocGet st.releases n).getD []).map RelEntry.id)))
        (assocGet_assocSet_self st.releases n (rs.map relEntryVal))
        (fun r hr => (List.mem_filter.mp hr).1)
      simp only [processRepos]
      rw [processRepo_ok env n st rs ts _ _ hrs hdr hts hdt]
      apply List.mem_append.mpr
      left
      apply List.mem_append.mpr
      right
      apply List.mem_map.mpr
      refine ⟨t, List.mem_filter.mpr ⟨List.mem_filter.mpr ⟨htm, ?_⟩, ?_⟩, ?_⟩
      · rw [hname]
        simpa using hnewtag
      · simp only [hname, decide_eq_true_eq]
        intro hmem
        exact hnocover ((hS s).mp hmem)
      · rw [hname]
        rfl
    · have hn' : n ∈ rest := by
        rcases List.mem_cons.mp hn with h1 | h2
        · exact absurd h1 hm
        · exact h2
      simp only [processRepos]
      apply List.mem_append.mpr
      right
      apply ih _ hn'
      rw [processRepo_tags_ne env m n st hm]
      exact hnewtag

/-! ## Round-trip lemmas for the persistence layer -/

theorem assocGet_map {α β : Type} (m : List (String × α)) (F : α → β)
    (k : String) :
    assocGet (m.map (fun p => (p.1, F p.2))) k = (assocGet m k).map F := by
  induction m with
  | nil => rfl
  | cons p rest ih =>
    by_cases h : p.1 = k
    · simp [assocGet, h]
    · simp [assocGet, h, ih]

theorem optMapM_map_id {α β : Type} (f : β → Option α) (g : α → β)
    (l : List α) (h : ∀ x, f (g x) = some x) :
    optMapM f (l.map g) = some l := by
  induction l with
  | nil => rfl
  | cons x xs ih => simp [optMapM, h x, ih]

theorem jToRepoEntry_inv (r : RepoEntry) :
    jToRepoEntry (repoEntryToJ r) = some r := by
  simp [jToRepoEntry, repoEntryToJ, assocGet]

theorem jToRelEntry_inv (r : RelEntry) :
    jToRelEntry (relEntryToJ r) = some r := by
  simp [jToRelEntry, relEntryToJ, assocGet]

theorem jToTagEntry_inv (t : TagEntry) :
    jToTagEntry (tagEntryToJ t) = some t := by
  simp [jToTagEntry, tagEntryToJ, assocGet]

theorem jToRelList_inv (p : String × List RelEntry) :
    jToRelList (p.1, J.arr (p.2.map relEntryToJ)) = some p := by
  simp [jToRelList, optMapM_map_id jToRelEntry relEntryToJ p.2 jToRelEntry_inv]

theorem jToTagList_inv (p : String × List TagEntry) :
    jToTagList (p.1, J.arr (p.2.map tagEntryToJ)) = some p := by
  simp [jToTagList, optMapM_map_id jToTagEntry tagEntryToJ p.2 jToTagEntry_inv]

theorem jToState_stateToJ (st : State) : jToState (stateToJ st) = some st := by
  simp [jToState, stateToJ, assocGet,
    optMapM_map_id jToRepoEntry repoEntryToJ st.repos jToRepoEntry_inv,
    optMapM_map_id jToRelList _ st.releases jToRelList_inv,
    optMapM_map_id jToTagList _ st.tags jToTagList_inv]

/-! ## Claims -/

/-- **C6.** If obtaining the organization's repository list fails
(`fetch_repos` raises, monitor.py:281-285), the entire pass aborts: `main`
returns with the loaded state unchanged, nothing persisted
(`save_state` never runs) and no notification emitted. -/
theorem C6_listing_failure_aborts_pass (env : Env) (st0 : State)
    (h : env.fetchRepos = .error ()) :
    runMain env st0 = .ok ⟨st0, false, []⟩ := by
  simp [runMain, h]

/-- Witness for C6 at a concrete adapter whose listing fails. -/
theorem C6_listing_failure_aborts_pass_witness :
    envListingFail.fetchRepos = .error () ∧
    runMain envListingFail emptyState = .ok ⟨emptyState, false, []⟩ :=
  ⟨rfl, C6_listing_failure_aborts_pass envListingFail emptyState rfl⟩

/-- **C7.** `detect_new_repos` returns exactly the subsequence of the
current fetched list whose names are absent from the snapshot's known
repository names, preserving relative order (it is a `filter`, hence a
sublist), and its result depends on the snapshot only through the known
NAMES: two snapshots with the same repository names but different ids give
the same result. -/
theorem C7_detect_new_repos_spec (current : List Repo) (st st' : State)
    (h : ∀ r ∈ current, r.name.isSome)
    (hnames : st.repos.map RepoEntry.name = st'.repos.map RepoEntry.name) :
    detect_new_repos current st =
      .ok (current.filter (fun r =>
        decide (r.name.getD "" ∉ st.repos.map RepoEntry.name))) ∧
    (current.filter (fun r =>
        decide (r.name.getD "" ∉ st.repos.map RepoEntry.name))).Sublist current ∧
    detect_new_repos current st = detect_new_repos current st' := by
  refine ⟨detectNewReposGo_eq _ current h, List.filter_sublist _, ?_⟩
  unfold detect_new_repos
  rw [hnames]

/-- Witness for C7: two snapshots agreeing on names `["a"]` but with
different ids; the repo `"a"` is filtered out, `"b"` is kept. -/
theorem C7_detect_new_repos_spec_witness :
    (∀ r ∈ [(⟨some "a", some 5⟩ : Repo), ⟨some "b", some 6⟩], r.name.isSome) ∧
    ((⟨[⟨"a", 1⟩], [], []⟩ : State).repos.map RepoEntry.name =
      (⟨[⟨"a", 99⟩], [], []⟩ : State).repos.map RepoEntry.name) ∧
    (detect_new_repos [⟨some "a", some 5⟩, ⟨some "b", some 6⟩]
        ⟨[⟨"a", 1⟩], [], []⟩ =
      .ok ([(⟨some "a", some 5⟩ : Repo), ⟨some "b", some 6⟩].filter (fun r =>
        decide (r.name.getD "" ∉
          (⟨[⟨"a", 1⟩], [], []⟩ : State).repos.map RepoEntry.name))) ∧
    ([(⟨some "a", some 5⟩ : Repo), ⟨some "b", some 6⟩].filter (fun r =>
        decide (r.name.getD "" ∉
          (⟨[⟨"a", 1⟩], [], []⟩ : State).repos.map RepoEntry.name))).Sublist
      [⟨some "a", some 5⟩, ⟨some "b", some 6⟩] ∧
    detect_new_repos [⟨some "a", some 5⟩, ⟨some "b", some 6⟩]
        ⟨[⟨"a", 1⟩], [], []⟩ =
      detect_new_repos [⟨some "a", some 5⟩, ⟨some "b", some 6⟩]
        ⟨[⟨"a", 99⟩], [], []⟩) :=
  ⟨by decide, rfl,
    C7_detect_new_repos_spec [⟨some "a", some 5⟩, ⟨some "b", some 6⟩]
      ⟨[⟨"a", 1⟩], [], []⟩ ⟨[⟨"a", 99⟩], [], []⟩ (by decide) rfl⟩

/-- **C3 counterexample.** The claim says the change-detection functions
never raise and substitute placeholders for missing fields; in fact each
one raises a `KeyError` when a record lacks its identity field: a
repository without a `name`, a release without an `id`, a tag without a
`name`. -/
theorem C3_counterexample :
    detect_new_repos [⟨none, some 1⟩] emptyState = .error "KeyError" ∧
    detect_new_releases "x" [⟨none, some "v1"⟩] emptyState = .error "KeyError" ∧
    detect_new_tags "x" [⟨none, some "sha"⟩] emptyState = .error "KeyError" :=
  ⟨rfl, rfl, rfl⟩

/-- **C3 amended.** The change-detection functions read only the identity
field of each current record (repository `name`, release `id`, tag `name`);
they succeed — for every snapshot — exactly when every record carries that
field, and raise a `KeyError` (no placeholder substitution) as soon as one
record lacks it. -/
theorem C3_detectors_raise_iff_missing_identity (current_repos : List Repo)
    (repo_name : String) (current_releases : List Release)
    (current_tags : List Tag) (st : State) :
    ((∃ out, detect_new_repos current_repos st = .ok out) ↔
      ∀ r ∈ current_repos, r.name.isSome) ∧
    ((∃ out, detect_new_releases repo_name current_releases st = .ok out) ↔
      ∀ r ∈ current_releases, r.id.isSome) ∧
    ((∃ out, detect_new_tags repo_name current_tags st = .ok out) ↔
      ∀ t ∈ current_tags, t.name.isSome) :=
  ⟨detectNewReposGo_ok_iff _ _, detectNewReleasesGo_ok_iff _ _,
    detectNewTagsGo_ok_iff _ _⟩

/-- **C9.** A notification delivery failure is non-fatal: the delivery
oracle (which webhook POSTs fail) influences nothing but the printed
outcome log, because `send_feishu_post` catches every delivery exception
(monitor.py:148-153).  The final state, the persisted flag and the full
ordered list of attempted notifications are identical under any two
delivery oracles — so a failed notification blocks neither the snapshot
update nor later notifications, and the next pass starts from the same
snapshot regardless of delivery outcomes (no re-detection). -/
theorem C9_notification_failure_nonfatal (env : Env) (st0 : State)
    (d1 d2 : Nat → Bool) :
    (runMainWithDelivery env d1 st0).map Prod.fst =
      (runMainWithDelivery env d2 st0).map Prod.fst ∧
    (runMainWithDelivery env d1 st0).map (fun p => p.1.state) =
      (runMain env st0).map PassResult.state := by
  unfold runMainWithDelivery
  cases runMain env st0 <;> simp [Except.map]

/-- **C8.** `save_state` followed by `load_state` reproduces an equivalent
snapshot: decoding the JSON document written for any state yields that
state back, and a repository whose release list is empty is present in the
document's `"releases"` object as an explicit empty array — a present key,
never an absent one (and likewise for tags, by the same round-trip). -/
theorem C8_save_load_roundtrip (st : State) :
    jToState (stateToJ st) = some st ∧
    (∀ k, assocGet st.releases k = some [] →
      ∃ fs, stateToJ st = J.obj fs ∧
        ∃ rel, assocGet fs "releases" = some (J.obj rel) ∧
          assocGet rel k = some (J.arr [])) ∧
    (∀ k, assocGet st.tags k = some [] →
      ∃ fs, stateToJ st = J.obj fs ∧
        ∃ tg, assocGet fs "tags" = some (J.obj tg) ∧
          assocGet tg k = some (J.arr [])) := by
  refine ⟨jToState_stateToJ st, ?_, ?_⟩
  · intro k hk
    refine ⟨_, rfl,
      ⟨st.releases.map (fun p => (p.1, J.arr (p.2.map relEntryToJ))), ?_, ?_⟩⟩
    · simp [assocGet]
    · have := assocGet_map st.releases (fun v => J.arr (v.map relEntryToJ)) k
      rw [hk] at this
      simpa using this
  · intro k hk
    refine ⟨_, rfl,
      ⟨st.tags.map (fun p => (p.1, J.arr (p.2.map tagEntryToJ))), ?_, ?_⟩⟩
    · simp [assocGet]
    · have := assocGet_map st.tags (fun v => J.arr (v.map tagEntryToJ)) k
      rw [hk] at this
      simpa using this

/-- Witness for C8 at a snapshot with one repository whose release and tag
lists are both empty. -/
theorem C8_save_load_roundtrip_witness :
    jToState (stateToJ stX) = some stX ∧
    (assocGet stX.releases "x" = some [] ∧
      ∃ fs, stateToJ stX = J.obj fs ∧
        ∃ rel, assocGet fs "releases" = some (J.obj rel) ∧
          assocGet rel "x" = some (J.arr [])) :=
  ⟨(C8_save_load_roundtrip stX).1,
    rfl, (C8_save_load_roundtrip stX).2.1 "x" rfl⟩

/-- **C2 counterexample.** The claim says the de-duplication union includes
the `tag_name` values of the snapshot's EXISTING release records.  In the
code, `state["releases"][repo_name]` is overwritten with the current fetch
(monitor.py:315) BEFORE the union is built (monitor.py:320), so a prior
record is invisible: here the snapshot's release records for `"x"` carry
tag name `"old"`, the adapter now returns no releases and a new tag
`"old"`, and — contrary to the claim — the tag is NOT removed: its
notification is emitted. -/
theorem C2_counterexample :
    assocGet stStale.releases "x" = some [(⟨1, "old"⟩ : RelEntry)] ∧
    assocGet stStale.tags "x" = some [] ∧
    envStaleRelease.fetchReleases "x" = .ok [] ∧
    envStaleRelease.fetchTags "x" = .ok [⟨some "old", some "sha"⟩] ∧
    (processRepo envStaleRelease "x" stStale).2 = [Notif.tag "x" "old"] :=
  ⟨rfl, rfl, rfl, rfl, by decide⟩

/-- **C2 amended.** The de-duplication removes from the newly detected tags
exactly those whose name is a non-empty `tag_name` of a release FETCHED IN
THE SAME PASS (the snapshot's release entry is overwritten with the current
fetch before the union is built, so the union collapses to that set, which
already subsumes the newly detected releases); membership is by exact
string equality, so a tag name differing from a release's `tag_name` by
case or formatting is not removed.  Stated as: a newly detected tag with
name `s` is notified iff no currently fetched release has non-empty
`tag_name` equal to `s`. -/
theorem C2_dedup_by_current_release_tag_names (env : Env) (rn : String)
    (st : State) (rs nrs : List Release) (ts nts : List Tag)
    (hr : env.fetchReleases rn = .ok rs)
    (hdr : detect_new_releases rn rs st = .ok nrs)
    (ht : env.fetchTags rn = .ok ts)
    (hdt : detect_new_tags rn ts st = .ok nts)
    (t : Tag) (s : String) (hts : t ∈ nts) (htn : t.name = some s) :
    Notif.tag rn s ∈ (processRepo env rn st).2 ↔
      ¬ ∃ r ∈ rs, r.tag_name = some s ∧ s ≠ "" := by
  rw [processRepo_ok env rn st rs ts nrs nts hr hdr ht hdt]
  have hS := mem_notifiedTagNames_iff
    { st with releases := assocSet st.releases rn (rs.map relEntryVal) }
    rn rs nrs (assocGet_assocSet_self st.releases rn (rs.map relEntryVal))
    (detectNewReleasesGo_subset _ rs nrs hdr)
  have hnames : ∀ x ∈ ts, x.name.isSome :=
    (detectNewTagsGo_ok_iff _ _).mp ⟨nts, hdt⟩
  constructor
  · intro hmem hex
    rcases List.mem_append.mp hmem with h1 | h2
    · obtain ⟨r, _, heq⟩ := List.mem_map.mp h1
      simp at heq
    · obtain ⟨t', ht', heq⟩ := List.mem_map.mp h2
      have hft' := List.mem_filter.mp ht'
      have ht'ts : t' ∈ ts := detectNewTagsGo_subset _ ts nts hdt t' hft'.1
      cases hn : t'.name with
      | none =>
        have := hnames t' ht'ts
        rw [hn] at this
        cases this
      | some u =>
        have hpred := hft'.2
        rw [hn] at hpred
        simp only [decide_eq_true_eq] at hpred
        have hu : u = s := by
          have : t'.name.getD "unknown" = s := by
            injection heq
          rw [hn] at this
          simpa using this
        subst hu
        exact hpred ((hS u).mpr hex)
  · intro hnotex
    apply List.mem_append.mpr
    right
    apply List.mem_map.mpr
    refine ⟨t, List.mem_filter.mpr ⟨hts, ?_⟩, ?_⟩
    · rw [htn]
      simp only [decide_eq_true_eq]
      intro hmem
      exact hnotex ((hS s).mp hmem)
    · rw [htn]
      rfl

/-- Witness for C2 amended, at a repository whose fetched release `"r1"`
covers the identically named new tag while the tag `"z"` matches no
current release: `"z"` is notified. -/
theorem C2_dedup_by_current_release_tag_names_witness :
    (Notif.tag "A" "z" ∈ (processRepo envThree "A" emptyState).2 ↔
      ¬ ∃ r ∈ [(⟨some 4, some "r1"⟩ : Release)],
        r.tag_name = some "z" ∧ "z" ≠ "") :=
  C2_dedup_by_current_release_tag_names envThree "A" emptyState
    [⟨some 4, some "r1"⟩] [⟨some 4, some "r1"⟩]
    [⟨some "r1", some "s"⟩, ⟨some "z", some "s2"⟩]
    [⟨some "r1", some "s"⟩, ⟨some "z", some "s2"⟩]
    rfl rfl rfl rfl ⟨some "z", some "s2"⟩ "z" (by decide) rfl

/-- **C10.** The suppression set (`notified_tag_names`, monitor.py:320-323)
is computed against the state whose release entry was already overwritten
with the current fetch at monitor.py:315, so its members are exactly the
non-empty `tag_name` values of the currently fetched releases; and a newly
detected tag whose name matches no currently fetched release (for example
one matching only a release recorded in the prior snapshot but absent from
the current fetch) is notified rather than suppressed.  Releases with an
empty or missing `tag_name` contribute nothing to the set. -/
theorem C10_suppression_set_is_current_fetch (env : Env) (rn : String)
    (st : State) (rs nrs : List Release) (ts nts : List Tag)
    (hr : env.fetchReleases rn = .ok rs)
    (hdr : detect_new_releases rn rs st = .ok nrs)
    (ht : env.fetchTags rn = .ok ts)
    (hdt : detect_new_tags rn ts st = .ok nts) :
    (∀ s, s ∈ notifiedTagNames
        { st with releases := assocSet st.releases rn (rs.map relEntryVal) }
        rn nrs ↔ ∃ r ∈ rs, r.tag_name = some s ∧ s ≠ "") ∧
    (∀ t s, t ∈ nts → t.name = some s →
      (¬ ∃ r ∈ rs, r.tag_name = some s ∧ s ≠ "") →
      Notif.tag rn s ∈ (processRepo env rn st).2) := by
  have hS := mem_notifiedTagNames_iff
    { st with releases := assocSet st.releases rn (rs.map relEntryVal) }
    rn rs nrs (assocGet_assocSet_self st.releases rn (rs.map relEntryVal))
    (detectNewReleasesGo_subset _ rs nrs hdr)
  refine ⟨hS, ?_⟩
  intro t s hts htn hnotex
  rw [processRepo_ok env rn st rs ts nrs nts hr hdr ht hdt]
  apply List.mem_append.mpr
  right
  apply List.mem_map.mpr
  refine ⟨t, List.mem_filter.mpr ⟨hts, ?_⟩, ?_⟩
  · rw [htn]
    simp only [decide_eq_true_eq]
    intro hmem
    exact hnotex ((hS s).mp hmem)
  · rw [htn]
    rfl

/-- Witness for C10: state with a stale release record `"old"`; the set is
empty (no current releases) and the tag `"old"` is notified. -/
theorem C10_suppression_set_is_current_fetch_witness :
    (∀ s, s ∈ notifiedTagNames
        { stStale with
            releases := assocSet stStale.releases "x" (([] : List Release).map relEntryVal) }
        "x" [] ↔ ∃ r ∈ ([] : List Release), r.tag_name = some s ∧ s ≠ "") ∧
    (∀ t s, t ∈ [(⟨some "old", some "sha"⟩ : Tag)] → t.name = some s →
      (¬ ∃ r ∈ ([] : List Release), r.tag_name = some s ∧ s ≠ "") →
      Notif.tag "x" s ∈ (processRepo envStaleRelease "x" stStale).2) :=
  C10_suppression_set_is_current_fetch envStaleRelease "x" stStale
    [] [] [⟨some "old", some "sha"⟩] [⟨some "old", some "sha"⟩]
    rfl rfl rfl rfl

/-- **C5 counterexample.** The claim says a newly detected release whose
`tag_name` equals a newly detected tag's `name` yields exactly one
notification.  With the shared name equal to the empty string, the
truthiness filters at monitor.py:320-322 drop it from the suppression set
and BOTH notifications are emitted. -/
theorem C5_counterexample :
    envEmptyTagName.fetchReleases "x" = .ok [⟨some 5, some ""⟩] ∧
    envEmptyTagName.fetchTags "x" = .ok [⟨some "", some "sha"⟩] ∧
    (⟨some 5, some ""⟩ : Release).tag_name = some "" ∧
    (⟨some "", some "sha"⟩ : Tag).name = some "" ∧
    (processRepo envEmptyTagName "x" stX).2 =
      [Notif.release "x" "", Notif.tag "x" ""] :=
  ⟨rfl, rfl, rfl, rfl, by decide⟩

/-- **C5 amended.** Within one pass over a repository, a newly detected
release whose NON-EMPTY `tag_name` equals the name of a newly detected tag
produces the release notification and never an additional tag notification
for that name, regardless of the order of the fetched release and tag
lists (both are universally quantified); a release whose `tag_name` is the
empty string does not suppress the identically named tag. -/
theorem C5_release_notified_tag_suppressed (env : Env) (rn : String)
    (st : State) (rs nrs : List Release) (ts nts : List Tag)
    (r : Release) (s : String)
    (hr : env.fetchReleases rn = .ok rs)
    (hdr : detect_new_releases rn rs st = .ok nrs)
    (ht : env.fetchTags rn = .ok ts)
    (hdt : detect_new_tags rn ts st = .ok nts)
    (hrmem : r ∈ nrs) (htag : r.tag_name = some s) (hs : s ≠ "") :
    Notif.release rn s ∈ (processRepo env rn st).2 ∧
    Notif.tag rn s ∉ (processRepo env rn st).2 := by
  have hS := mem_notifiedTagNames_iff
    { st with releases := assocSet st.releases rn (rs.map relEntryVal) }
    rn rs nrs (assocGet_assocSet_self st.releases rn (rs.map relEntryVal))
    (detectNewReleasesGo_subset _ rs nrs hdr)
  have hnames : ∀ x ∈ ts, x.name.isSome :=
    (detectNewTagsGo_ok_iff _ _).mp ⟨nts, hdt⟩
  have hrrs : r ∈ rs := detectNewReleasesGo_subset _ rs nrs hdr r hrmem
  rw [processRepo_ok env rn st rs ts nrs nts hr hdr ht hdt]
  constructor
  · apply List.mem_append.mpr
    left
    apply List.mem_map.mpr
    refine ⟨r, hrmem, ?_⟩
    rw [htag]
    rfl
  · intro hmem
    rcases List.mem_append.mp hmem with h1 | h2
    · obtain ⟨r', _, heq⟩ := List.mem_map.mp h1
      simp at heq
    · obtain ⟨t', ht', heq⟩ := List.mem_map.mp h2
      have hft' := List.mem_filter.mp ht'
      have ht'ts : t' ∈ ts := detectNewTagsGo_subset _ ts nts hdt t' hft'.1
      cases hn : t'.name with
      | none =>
        have := hnames t' ht'ts
        rw [hn] at this
        cases this
      | some u =>
        have hpred := hft'.2
        rw [hn] at hpred
        simp only [decide_eq_true_eq] at hpred
        have hu : u = s := by
          have huu : t'.name.getD "unknown" = s := by
            injection heq
          rw [hn] at huu
          simpa using huu
        subst hu
        exact hpred ((hS u).mpr ⟨r, hrrs, htag, hs⟩)

/-- Witness for C5 amended: release `"r1"` and tag `"r1"` for repository
`"A"`: the release notification appears, the tag one does not. -/
theorem C5_release_notified_tag_suppressed_witness :
    Notif.release "A" "r1" ∈ (processRepo envThree "A" emptyState).2 ∧
    Notif.tag "A" "r1" ∉ (processRepo envThree "A" emptyState).2 :=
  C5_release_notified_tag_suppressed envThree "A" emptyState
    [⟨some 4, some "r1"⟩] [⟨some 4, some "r1"⟩]
    [⟨some "r1", some "s"⟩, ⟨some "z", some "s2"⟩]
    [⟨some "r1", some "s"⟩, ⟨some "z", some "s2"⟩]
    ⟨some 4, some "r1"⟩ "r1"
    rfl rfl rfl rfl (by decide) rfl (by decide)

/-- **C1 counterexample.** The claim says a failure fetching releases OR
TAGS skips the repository's processing entirely with no snapshot mutation
for it.  In the code the release snapshot entry is overwritten at
monitor.py:315 BEFORE `fetch_tags` runs at monitor.py:318, so when the tag
fetch for `"B"` fails the pass has already notified `"B"`'s new release
and mutated its release entry (from `[]` to the fetched list) — and that
mutation is persisted, since the pass still completes. -/
theorem C1_counterexample :
    envTagsFail.fetchTags "B" = .error () ∧
    assocGet stB.releases "B" = some [] ∧
    runMain envTagsFail stB =
      .ok ⟨⟨[⟨"B", 2⟩], [("B", [⟨1, "t"⟩])], [("B", [])]⟩, true,
        [Notif.release "B" "t"]⟩ :=
  ⟨rfl, rfl, rfl⟩

/-- **C1 amended.** Partial-failure isolation as the code implements it:
(a) if fetching RELEASES for a repository fails, that repository's
release/tag processing is skipped entirely and no part of the snapshot is
mutated for it; (b) if the release fetch succeeds but the TAG fetch fails,
the release detection, notifications and release-entry overwrite have
already happened and stand, while the tag entry is left unmutated and no
tag notification is emitted; (c) the pass still completes and persists,
and every repository whose fetches succeed is still detected, notified and
updated: its snapshot entries are overwritten from its own fetch results,
every one of its releases that is new relative to the prior snapshot has
its release notification in the pass's notifications, and every one of its
new tags not covered by a currently fetched release has its tag
notification there too. -/
theorem C1_partial_failure_isolation (env : Env) (rn : String)
    (st st0 : State) (rs nrs : List Release) (repos : List Repo) :
    (env.fetchReleases rn = .error () → processRepo env rn st = (st, [])) ∧
    (env.fetchReleases rn = .ok rs → detect_new_releases rn rs st = .ok nrs →
      env.fetchTags rn = .error () →
      processRepo env rn st =
        ({ st with releases := assocSet st.releases rn (rs.map relEntryVal) },
          nrs.map (fun r => Notif.release rn (r.tag_name.getD "unknown")))) ∧
    (env.fetchRepos = .ok repos → (∀ r ∈ repos, r.name.isSome) →
      (∀ r ∈ repos, r.id.isSome) →
      ∃ res, runMain env st0 = .ok res ∧ res.persisted = true ∧
        ∀ n, GoodAt env n →
          n ∈ (repos.map repoEntryVal).map RepoEntry.name →
          (∃ rsn, env.fetchReleases n = .ok rsn ∧
            assocGet res.state.releases n = some (rsn.map relEntryVal)) ∧
          (∃ tsn, env.fetchTags n = .ok tsn ∧
            assocGet res.state.tags n = some (tsn.map tagEntryVal)) ∧
          (∀ rsn, env.fetchReleases n = .ok rsn → ∀ r' ∈ rsn,
            r'.id.getD 0 ∉
              ((assocGet st0.releases n).getD []).map RelEntry.id →
            Notif.release n (r'.tag_name.getD "unknown") ∈ res.notifs) ∧
          (∀ rsn tsn, env.fetchReleases n = .ok rsn →
            env.fetchTags n = .ok tsn → ∀ t ∈ tsn, ∀ s, t.name = some s →
            s ∉ ((assocGet st0.tags n).getD []).map TagEntry.name →
            (¬ ∃ r' ∈ rsn, r'.tag_name = some s ∧ s ≠ "") →
            Notif.tag n s ∈ res.notifs)) := by
  refine ⟨processRepo_relFail env rn st,
    fun hr hdr ht => processRepo_tagFail env rn st rs nrs hr hdr ht, ?_⟩
  intro hrp hn hi
  rw [runMain_eq env st0 repos hrp hn hi]
  refine ⟨_, rfl, rfl, ?_⟩
  intro n hg hmem
  refine ⟨processRepos_rel_entry env _ _ n hg hmem,
    processRepos_tags_entry env _ _ n hg hmem, ?_, ?_⟩
  · intro rsn hrsn r' hr' hnew
    apply List.mem_append.mpr
    right
    exact processRepos_rel_notif env n rsn hrsn hg r' hr' _ _ hmem hnew
  · intro rsn tsn hrsn htsn t htm s hname hnewtag hnocover
    apply List.mem_append.mpr
    right
    exact processRepos_tag_notif env n rsn tsn hrsn htsn hg t htm s hname
      hnocover _ _ hmem hnewtag

/-- Witness for C1 amended, exercising all three clauses non-vacuously:
(a) at `envRelFail`, whose release fetch fails, the repository is skipped
with no mutation; (b) at `envMixed`, repository `"B"`'s tag fetch fails
after its release fetch succeeded, so its release entry is overwritten and
its release notified while its tag entry stays untouched; (c) in the same
mixed run, repository `"A"` IS `GoodAt` (so the good-repository clause is
not vacuous) and the concrete full run shows `"A"`'s release and tag
notifications and `"B"`'s release notification all emitted, with the pass
persisting. -/
theorem C1_partial_failure_isolation_witness :
    (processRepo envRelFail "N" emptyState = (emptyState, [])) ∧
    (processRepo envMixed "B" emptyState =
      ({ emptyState with releases := (assocSet emptyState.releases "B"
          ([(⟨some 4, some "r1"⟩ : Release)].map relEntryVal)) },
        [(⟨some 4, some "r1"⟩ : Release)].map
          (fun r => Notif.release "B" (r.tag_name.getD "unknown")))) ∧
    GoodAt envMixed "A" ∧
    (runMain envMixed emptyState =
      .ok ⟨⟨[⟨"A", 1⟩, ⟨"B", 2⟩, ⟨"C", 3⟩],
            [("A", [⟨4, "r1"⟩]), ("B", [⟨4, "r1"⟩]), ("C", [])],
            [("A", [⟨"z", "s"⟩]), ("C", [])]⟩, true,
           [Notif.repo "A", Notif.repo "B", Notif.repo "C",
            Notif.release "A" "r1", Notif.tag "A" "z",
            Notif.release "B" "r1"]⟩) ∧
    (∃ res, runMain envMixed emptyState = .ok res ∧ res.persisted = true ∧
      ∀ n, GoodAt envMixed n →
        n ∈ ([(⟨some "A", some 1⟩ : Repo), ⟨some "B", some 2⟩,
            ⟨some "C", some 3⟩].map repoEntryVal).map RepoEntry.name →
        (∃ rsn, envMixed.fetchReleases n = .ok rsn ∧
          assocGet res.state.releases n = some (rsn.map relEntryVal)) ∧
        (∃ tsn, envMixed.fetchTags n = .ok tsn ∧
          assocGet res.state.tags n = some (tsn.map tagEntryVal)) ∧
        (∀ rsn, envMixed.fetchReleases n = .ok rsn → ∀ r' ∈ rsn,
          r'.id.getD 0 ∉
            ((assocGet emptyState.releases n).getD []).map RelEntry.id →
          Notif.release n (r'.tag_name.getD "unknown") ∈ res.notifs) ∧
        (∀ rsn tsn, envMixed.fetchReleases n = .ok rsn →
          envMixed.fetchTags n = .ok tsn → ∀ t ∈ tsn, ∀ s, t.name = some s →
          s ∉ ((assocGet emptyState.tags n).getD []).map TagEntry.name →
          (¬ ∃ r' ∈ rsn, r'.tag_name = some s ∧ s ≠ "") →
          Notif.tag n s ∈ res.notifs)) :=
  ⟨(C1_partial_failure_isolation envRelFail "N" emptyState emptyState
      [] [] []).1 rfl,
   (C1_partial_failure_isolation envMixed "B" emptyState emptyState
      [⟨some 4, some "r1"⟩] [⟨some 4, some "r1"⟩] []).2.1 rfl rfl rfl,
   ⟨⟨_, rfl, by decide⟩, ⟨_, rfl, by decide⟩⟩,
   rfl,
   (C1_partial_failure_isolation envMixed "B" emptyState emptyState
      [⟨some 4, some "r1"⟩] [⟨some 4, some "r1"⟩]
      [⟨some "A", some 1⟩, ⟨some "B", some 2⟩, ⟨some "C", some 3⟩]).2.2
      rfl (by decide) (by decide)⟩

/-- **C4 counterexample.** The claim conditions only on the run completing
and persisting.  Here the pass completes and persists (the repo-scoped
failure is caught at monitor.py:343 and `save_state` still runs at
monitor.py:347), the previously unseen repository `"N"` is in the fetched
list, yet the persisted snapshot has NO key for `"N"` in either the
release or the tag mapping: the `except` fires before monitor.py:315 ever
runs for `"N"`. -/
theorem C4_counterexample :
    envRelFail.fetchRepos = .ok [⟨some "N", some 7⟩] ∧
    runMain envRelFail emptyState =
      .ok ⟨⟨[⟨"N", 7⟩], [], []⟩, true, [Notif.repo "N"]⟩ ∧
    assocGet (⟨[⟨"N", 7⟩], [], []⟩ : State).releases "N" = none ∧
    assocGet (⟨[⟨"N", 7⟩], [], []⟩ : State).tags "N" = none :=
  ⟨rfl, rfl, rfl, rfl⟩

/-- **C4 amended.** After a run over well-formed fetched repositories
completes and persists, every fetched repository name has an entry in the
snapshot's repository collection; and every fetched repository WHOSE OWN
RELEASE AND TAG FETCHES SUCCEEDED (with well-formed records) additionally
has a key in both the per-repository release and tag mappings — an
explicit empty list (a present key mapping to `[]`, never an absent key)
whenever the adapter returned no releases or no tags for it.  A repository
whose per-repository fetch failed may be left without those keys. -/
theorem C4_entries_for_successfully_fetched_repos (env : Env) (st0 : State)
    (repos : List Repo)
    (hr : env.fetchRepos = .ok repos)
    (hn : ∀ r ∈ repos, r.name.isSome)
    (hi : ∀ r ∈ repos, r.id.isSome) :
    ∃ res, runMain env st0 = .ok res ∧ res.persisted = true ∧
      (∀ r ∈ repos, ∀ nm, r.name = some nm →
        nm ∈ res.state.repos.map RepoEntry.name) ∧
      (∀ r ∈ repos, ∀ nm, r.name = some nm → GoodAt env nm →
        (∃ rsn, env.fetchReleases nm = .ok rsn ∧
          assocGet res.state.releases nm = some (rsn.map relEntryVal)) ∧
        (∃ tsn, env.fetchTags nm = .ok tsn ∧
          assocGet res.state.tags nm = some (tsn.map tagEntryVal)) ∧
        (env.fetchReleases nm = .ok [] →
          assocGet res.state.releases nm = some []) ∧
        (env.fetchTags nm = .ok [] →
          assocGet res.state.tags nm = some [])) := by
  rw [runMain_eq env st0 repos hr hn hi]
  refine ⟨_, rfl, rfl, ?_, ?_⟩
  · intro r hrr nm hnm
    rw [processRepos_repos, List.mem_map]
    refine ⟨repoEntryVal r, List.mem_map_of_mem _ hrr, ?_⟩
    simp [repoEntryVal, hnm]
  · intro r hrr nm hnm hg
    have hmem : nm ∈ (repos.map repoEntryVal).map RepoEntry.name := by
      rw [List.mem_map]
      refine ⟨repoEntryVal r, List.mem_map_of_mem _ hrr, ?_⟩
      simp [repoEntryVal, hnm]
    refine ⟨processRepos_rel_entry env _ _ nm hg hmem,
      processRepos_tags_entry env _ _ nm hg hmem, ?_, ?_⟩
    · intro hempty
      obtain ⟨rsn, hr1, hset⟩ := processRepos_rel_entry env
        ((repos.map repoEntryVal).map RepoEntry.name)
        { st0 with repos := repos.map repoEntryVal } nm hg hmem
      rw [hr1] at hempty
      cases hempty
      simpa using hset
    · intro hempty
      obtain ⟨tsn, ht1, hset⟩ := processRepos_tags_entry env
        ((repos.map repoEntryVal).map RepoEntry.name)
        { st0 with repos := repos.map repoEntryVal } nm hg hmem
      rw [ht1] at hempty
      cases hempty
      simpa using hset

/-- Witness for C4 amended at the mixed adapter: `"A"` and `"C"` are
`GoodAt` (clause non-vacuous), `"C"`'s empty release and tag lists must
appear as present keys mapping to `[]`, and `"B"` — whose tag fetch fails
— still has its name in the repository collection. -/
theorem C4_entries_for_successfully_fetched_repos_witness :
    GoodAt envMixed "A" ∧ GoodAt envMixed "C" ∧
    (∃ res, runMain envMixed emptyState = .ok res ∧ res.persisted = true ∧
      (∀ r ∈ [(⟨some "A", some 1⟩ : Repo), ⟨some "B", some 2⟩,
          ⟨some "C", some 3⟩], ∀ nm, r.name = some nm →
        nm ∈ res.state.repos.map RepoEntry.name) ∧
      (∀ r ∈ [(⟨some "A", some 1⟩ : Repo), ⟨some "B", some 2⟩,
          ⟨some "C", some 3⟩], ∀ nm, r.name = some nm → GoodAt envMixed nm →
        (∃ rsn, envMixed.fetchReleases nm = .ok rsn ∧
          assocGet res.state.releases nm = some (rsn.map relEntryVal)) ∧
        (∃ tsn, envMixed.fetchTags nm = .ok tsn ∧
          assocGet res.state.tags nm = some (tsn.map tagEntryVal)) ∧
        (envMixed.fetchReleases nm = .ok [] →
          assocGet res.state.releases nm = some []) ∧
        (envMixed.fetchTags nm = .ok [] →
          assocGet res.state.tags nm = some []))) :=
  ⟨⟨⟨_, rfl, by decide⟩, ⟨_, rfl, by decide⟩⟩,
   ⟨⟨_, rfl, by decide⟩, ⟨_, rfl, by decide⟩⟩,
   C4_entries_for_successfully_fetched_repos envMixed emptyState
     [⟨some "A", some 1⟩, ⟨some "B", some 2⟩, ⟨some "C", some 3⟩]
     rfl (by decide) (by decide)⟩

end Monitor
